import Mathlib

/-!
Verification of the call-monitoring pipeline in `bitrix24_monitor_rt.py`.

The Python source is shallowly embedded: pure helper functions become Lean
functions on `String`, `ℤ`, `ℕ` and `ℚ`; Python floats are modelled as exact
rationals `ℚ`; parsed JSON values (the output of `json.loads`) are modelled by
the inductive type `PyVal`; network replies and HTTP bodies are passed in as
explicit inputs so the stateful code becomes pure state passing.
-/

set_option autoImplicit false

namespace B24

/-! ## Generic string helpers (model Python `str` primitives) -/

/-- Python whitespace characters recognised by `str.strip` and `\s`
(ASCII subset; the repository's data never contains exotic Unicode spaces). -/
def isSpaceChar (c : Char) : Bool :=
  c = ' ' || c = Char.ofNat 9 || c = Char.ofNat 10 || c = Char.ofNat 13 ||
  c = Char.ofNat 11 || c = Char.ofNat 12

/-- Model of Python `str.strip()` on a character list. -/
def stripChars (l : List Char) : List Char :=
  ((l.dropWhile isSpaceChar).reverse.dropWhile isSpaceChar).reverse

/-- Model of Python `str.strip()`. -/
def pyStrip (s : String) : String := String.mk (stripChars s.data)

/-- Model of Python `str.lower()` on one character, for the alphabets the
repository actually uses: ASCII letters and the Cyrillic block (incl. the
Ukrainian letters І, Ї, Є and Ґ). -/
def lowerChar (c : Char) : Char :=
  if 'A' ≤ c && c ≤ 'Z' then Char.ofNat (c.toNat + 32)
  else if 0x400 ≤ c.toNat && c.toNat ≤ 0x40F then Char.ofNat (c.toNat + 0x50)
  else if 0x410 ≤ c.toNat && c.toNat ≤ 0x42F then Char.ofNat (c.toNat + 0x20)
  else if c.toNat = 0x490 then Char.ofNat 0x491
  else c

/-- Model of Python `str.lower()`. -/
def pyLower (s : String) : String := String.mk (s.data.map lowerChar)

/-- Collapse every run of whitespace into a single space
(the effect of `re.sub(r"\s+", " ", ...)`).  The boolean records whether the
previous character was whitespace. -/
def collapseWsGo : Bool → List Char → List Char
  | _, [] => []
  | prevSp, c :: rest =>
    if isSpaceChar c then
      if prevSp then collapseWsGo true rest else ' ' :: collapseWsGo true rest
    else c :: collapseWsGo false rest

/-- Embeds `_norm_ws` (line 116): `re.sub(r"\s+", " ", s.strip().lower())`. -/
def _norm_ws (s : String) : String :=
  String.mk (collapseWsGo false ((stripChars s.data).map lowerChar))

/-- Whether `pat` occurs at the head of `txt`. -/
def headMatches : List Char → List Char → Bool
  | [], _ => true
  | _ :: _, [] => false
  | a :: as, b :: bs => a = b && headMatches as bs

/-- Whether `pat` occurs anywhere inside `txt` (Python `pat in txt`). -/
def hasSub (pat : List Char) : List Char → Bool
  | [] => pat.isEmpty
  | c :: rest => headMatches pat (c :: rest) || hasSub pat rest

/-- Model of the Python substring test `pat in txt`. -/
def strContains (txt pat : String) : Bool := hasSub pat.data txt.data

/-- Model of Python `txt.endswith(pat)`. -/
def strEndsWith (txt pat : String) : Bool :=
  headMatches pat.data.reverse txt.data.reverse

/-! ## Numeric helpers -/

/-- Embeds `_clamp` (line 120): `max(lo, min(hi, x))`. -/
def _clamp (x lo hi : ℚ) : ℚ := max lo (min hi x)

/-- Model of Python `round()` on a rational: round half to even. -/
def pythonRound (q : ℚ) : ℤ :=
  let f : ℤ := ⌊q⌋
  let r : ℚ := q - (f : ℚ)
  if r < 1/2 then f
  else if 1/2 < r then f + 1
  else if f % 2 = 0 then f else f + 1

/-- Model of Python `int()` truncation toward zero on a rational. -/
def pyTrunc (q : ℚ) : ℤ := if q < 0 then ⌈q⌉ else ⌊q⌋

/-! ## Trust metrics (lines 125–191) -/

/-- Character class of the word regex `[A-Za-zА-Яа-яІіЇїЄє0-9']+`
in `compute_transcript_trust`. -/
def isWordChar (c : Char) : Bool :=
  ('A' ≤ c && c ≤ 'Z') || ('a' ≤ c && c ≤ 'z') ||
  (0x410 ≤ c.toNat && c.toNat ≤ 0x42F) || (0x430 ≤ c.toNat && c.toNat ≤ 0x44F) ||
  c.toNat = 0x406 || c.toNat = 0x456 || c.toNat = 0x407 || c.toNat = 0x457 ||
  c.toNat = 0x404 || c.toNat = 0x454 ||
  ('0' ≤ c && c ≤ '9') || c = Char.ofNat 39

/-- Counts the start of each maximal run of word characters; the boolean says
whether the previous character was a word character. -/
def countWordsGo : Bool → List Char → ℕ
  | _, [] => 0
  | inWord, c :: rest =>
    if isWordChar c then (if inWord then 0 else 1) + countWordsGo true rest
    else countWordsGo false rest

/-- Number of matches of `re.findall(r"[A-Za-zА-Яа-яІіЇїЄє0-9']+", s)`. -/
def countWords (s : String) : ℕ := countWordsGo false s.data

/-- Embeds `compute_transcript_trust` (lines 125–145).  Python floats are
modelled as exact rationals.  `duration_sec` is `None`, or an integer; the
guard `not duration_sec or duration_sec <= 0` holds exactly when the duration
is absent or ≤ 0. -/
def compute_transcript_trust (transcript : String) (duration_sec : Option ℤ) : ℤ :=
  if transcript = "" then 0
  else
    let lenBranch : ℤ :=
      pythonRound (_clamp (((transcript.length : ℚ) / 1200) * 100) 20 95)
    match duration_sec with
    | none => lenBranch
    | some d =>
      if d ≤ 0 then lenBranch
      else
        let words : ℕ := countWords transcript
        let minutes : ℚ := (d : ℚ) / 60
        let expected : ℤ := max 30 (pyTrunc (minutes * 120))
        let wordRate : ℚ := _clamp ((words : ℚ) / (expected : ℚ)) 0 (12/10)
        let trust : ℚ := 100 * _clamp (wordRate / (9/10)) 0 1
        pythonRound trust

/-- Embeds `compute_overall_trust` (lines 176–180): `min(int(t), int(a))`. -/
def compute_overall_trust (transcript_trust analysis_trust : ℤ) : ℤ :=
  min transcript_trust analysis_trust

/-! ## Call Selector (lines 72–84 and 250–257) -/

/-- The fields of a parsed `CallItem` (dataclass, lines 72–84) that the
eligibility filter inspects.  `duration` is `None` when `CALL_DURATION` was
absent/`"empty"`; `record_url` is `None` when `CALL_RECORD_URL` was
absent/empty; `call_type` is `None` when `CALL_TYPE` was absent/empty. -/
structure CallItem where
  call_id : String
  call_start : String
  duration : Option ℤ
  record_url : Option String
  call_type : Option String

/-- Python truthiness of the optional duration (`r.duration` in a boolean
context): false for `None` and for `0`. -/
def durTruthy : Option ℤ → Bool
  | none => false
  | some d => d ≠ 0

/-- Python truthiness of the optional record url: false for `None` and `""`. -/
def strOptTruthy : Option String → Bool
  | none => false
  | some s => s ≠ ""

/-- Embeds the filter condition of lines 250–255:
`(r.duration and r.duration >= MIN_DURATION_SEC and r.record_url) and
 (not ONLY_INCOMING or (r.call_type == INCOMING_CODE))`. -/
def eligible (minDur : ℤ) (onlyIncoming : Bool) (incomingCode : String)
    (r : CallItem) : Bool :=
  (durTruthy r.duration &&
    (match r.duration with
     | none => false
     | some d => decide (minDur ≤ d)) &&
    strOptTruthy r.record_url) &&
  (!onlyIncoming || r.call_type == some incomingCode)

/-- The filtering stage of `b24_vox_get_latest` (line 250): keep exactly the
eligible candidates. -/
def selectEligible (minDur : ℤ) (onlyIncoming : Bool) (incomingCode : String)
    (rs : List CallItem) : List CallItem :=
  rs.filter (eligible minDur onlyIncoming incomingCode)

/-! ## Parsed JSON values

`json.loads` produces nested dicts, lists, strings, numbers, booleans and
`None`; `PyVal` mirrors exactly that universe.  A missing key and an explicit
JSON `null` are both `None` for Python's `dict.get`, which `getD`/`getOpt`
reproduce. -/

inductive PyVal where
  | pyNone
  | pyBool (b : Bool)
  | pyInt (n : ℤ)
  | pyFloat (q : ℚ)
  | pyStr (s : String)
  | pyList (xs : List PyVal)
  | pyDict (fields : List (String × PyVal))

/-- First binding of a key in a dict's field list. -/
def lookupKey : List (String × PyVal) → String → Option PyVal
  | [], _ => none
  | (k, v) :: rest, key => if k = key then some v else lookupKey rest key

/-- Python `key in obj` / `obj[key]` combined: `some v` when present. -/
def getOpt : PyVal → String → Option PyVal
  | .pyDict fs, k => lookupKey fs k
  | _, _ => none

/-- Python `obj.get(key, default)`. -/
def getD (o : PyVal) (k : String) (d : PyVal) : PyVal := (getOpt o k).getD d

/-- Python truthiness (`bool(v)`). -/
def pyTruthy : PyVal → Bool
  | .pyNone => false
  | .pyBool b => b
  | .pyInt n => n ≠ 0
  | .pyFloat q => q ≠ 0
  | .pyStr s => s ≠ ""
  | .pyList xs => !xs.isEmpty
  | .pyDict fs => !fs.isEmpty

/-- Numeric view used by `isinstance(conf, (int, float))` followed by
`float(conf)`; Python `bool` is a subclass of `int`, so it counts. -/
def toQ : PyVal → Option ℚ
  | .pyBool b => some (if b then 1 else 0)
  | .pyInt n => some (n : ℚ)
  | .pyFloat q => some q
  | _ => none

/-- Whether the value is a Python `str`. -/
def isPyStr : PyVal → Bool
  | .pyStr _ => true
  | _ => false

/-- Python `v == "lit"` for a `PyVal` against a string literal. -/
def pyEqStr (v : PyVal) (lit : String) : Bool :=
  match v with
  | .pyStr s => s = lit
  | _ => false

/-! ## Evaluation Engine (`analyze_and_summarize`, lines 434–719) -/

/-- The fixed criterion labels (lines 458–467). -/
def labels : List String :=
  ["Привітання по скрипту",
   "З’ясування суті звернення",
   "Ввічливість і емпатія",
   "Не перебивав",
   "Рішення",
   "Наступні дії або строки",
   "Допомога",
   "Завершення"]

/-- The allowed call-topic tags (lines 447–456). -/
def allowed_tags : List String :=
  ["Технічна проблема",
   "Платежі/рахунок",
   "Підключення/тарифи",
   "Доставка/візит",
   "Підтримка акаунта",
   "Скарга",
   "Загальне питання",
   "Інше"]

/-- The call-topic vocabulary blocklist of line 632. -/
def bad_topic_tokens : List String :=
  ["немає інтернет", "закінчил", "кошти", "рахунок", "тариф", "оплат", "поповнен"]

/-- Phrase whose presence in the joined `top_issues` disables the topic-leak
rejection (line 634). -/
def no_remarks_phrase : String := "немає суттєвих зауважень"

/-- Error-message positions of the item loop, `f"checklist[{i}]" + suffix`. -/
def idxMsg (i : ℕ) (suffix : String) : String :=
  "checklist[" ++ toString i ++ "]" ++ suffix

/-- Status membership test `st not in ("ok", "partial", "fail")` (line 574). -/
def statusAllowed (st : PyVal) : Bool :=
  match st with
  | .pyStr s => s = "ok" || s = "partial" || s = "fail"
  | _ => false

/-- Trivial-note test of line 604. -/
def trivialNote (note_s : String) : Bool :=
  let l := pyLower note_s
  l = "так" || l = "ні" || l = "ок" || l = "добре"

/-- Embeds the body of the checklist-item loop of `_validate`
(lines 565–605) for the item at position `i`; `none` means the item passed,
`some msg` is the early-returned error message. -/
def validateItem (i : ℕ) (item : PyVal) : Option String :=
  match item with
  | .pyDict _ =>
    let st := getD item "status" .pyNone
    let note := getD item "note" .pyNone
    let ev := getD item "evidence" (.pyStr "")
    let conf := getD item "confidence" .pyNone
    if !statusAllowed st then some (idxMsg i ".status invalid")
    else
      match note with
      | .pyStr ns =>
        let note_s := pyStrip ns
        if note_s.length < 6 || note_s.length > 220 then
          some (idxMsg i ".note bad length")
        else if _norm_ws note_s = _norm_ws (labels.getD i "") then
          some (idxMsg i ".note equals label")
        else
          match ev with
          | .pyStr es =>
            if es.length > 180 then some (idxMsg i ".evidence too long")
            else
              match toQ conf with
              | some q =>
                if q < 0 || q > 1 then some (idxMsg i ".confidence out of range")
                else if q < mkRat 6 10 && pyEqStr st "ok" then
                  some (idxMsg i " ok with low confidence")
                else if q < mkRat 3 4 && pyEqStr st "ok" then
                  some (idxMsg i " ok with conf<0.75")
                else if trivialNote note_s then some (idxMsg i " trivial note")
                else none
              | none => some (idxMsg i ".confidence not number")
          | _ => some (idxMsg i ".evidence not string")
      | _ => some (idxMsg i ".note not string")
  | _ => some (idxMsg i " not object")

/-- First error of the enumerated item loop, starting at index `i`. -/
def firstItemErrorFrom (i : ℕ) : List PyVal → Option String
  | [] => none
  | it :: rest =>
    match validateItem i it with
    | some msg => some msg
    | none => firstItemErrorFrom (i + 1) rest

/-- Line 633: `" ".join([_norm_ws(x) for x in top_issues if isinstance(x, str)])`. -/
def normJoin (tis : List PyVal) : String :=
  String.intercalate " "
    (tis.filterMap (fun x =>
      match x with
      | .pyStr s => some (_norm_ws s)
      | _ => none))

/-- The tag/summary/coaching/risk/topic checks of lines 607–637, reached only
after every checklist item passed. -/
def validateTail (obj : PyVal) : Bool × String :=
  let tagOK :=
    match getD obj "tag" .pyNone with
    | .pyStr s => allowed_tags.contains s
    | _ => false
  if !tagOK then (false, "tag not allowed")
  else
    match getD obj "summary" .pyNone with
    | .pyStr summary =>
      if (pyStrip summary).length < 10 then (false, "summary too short")
      else
        match getD obj "coaching" .pyNone with
        | .pyDict _ =>
          let coaching := getD obj "coaching" .pyNone
          let top_issues := getD coaching "top_issues" .pyNone
          let tip := getD coaching "one_sentence_tip" .pyNone
          match top_issues with
          | .pyList tis =>
            if !(tis.length = 2 && tis.all isPyStr) then
              (false, "coaching.top_issues invalid")
            else
              match tip with
              | .pyStr tipS =>
                if (pyStrip tipS).length < 10 then
                  (false, "coaching.one_sentence_tip invalid")
                else
                  match getD obj "risk_flags" .pyNone with
                  | .pyList rfs =>
                    if !rfs.all isPyStr then (false, "risk_flags invalid")
                    else
                      let ti_join := normJoin tis
                      if bad_topic_tokens.any (fun tok => strContains ti_join tok)
                          && !strContains ti_join no_remarks_phrase then
                        (false, "coaching.top_issues looks like call topic")
                      else (true, "")
                  | _ => (false, "risk_flags invalid")
              | _ => (false, "coaching.one_sentence_tip invalid")
          | _ => (false, "coaching.top_issues invalid")
        | _ => (false, "coaching missing")
    | _ => (false, "summary too short")

/-- Embeds `_validate` (lines 554–637). -/
def _validate (obj : PyVal) : Bool × String :=
  match obj with
  | .pyDict _ =>
    match getOpt obj "facts" with
    | some (.pyDict _) =>
      (match getOpt obj "checklist" with
       | some (.pyList cl) =>
         if cl.length = 8 then
           match firstItemErrorFrom 0 cl with
           | some msg => (false, msg)
           | none => validateTail obj
         else (false, "checklist must be list length 8")
       | _ => (false, "checklist must be list length 8"))
    | _ => (false, "facts missing or not object")
  | _ => (false, "root not object")

/-- The `{"error": ...}` sentinel objects returned on lines 440 and 662. -/
def errorObj (e : String) : PyVal := .pyDict [("error", .pyStr e)]

/-- The checklist of a validated reply (`obj["checklist"]`). -/
def checklistOf (obj : PyVal) : Option (List PyVal) :=
  match getOpt obj "checklist" with
  | some (.pyList cl) => some cl
  | _ => none

/-- The score loop of lines 674–682: one point per `status == "ok"` item. -/
def scoreOf (obj : PyVal) : ℕ :=
  ((checklistOf obj).getD []).countP
    (fun it => pyEqStr (getD it "status" .pyNone) "ok")

/-- Line 667: `tag = obj.get("tag") or "Інше"` followed by `str(tag)`
(validation guarantees the tag is a string when this line runs). -/
def tagOf (obj : PyVal) : String :=
  match getOpt obj "tag" with
  | some t =>
    if pyTruthy t then
      match t with
      | .pyStr s => s
      | _ => "Інше"
    else "Інше"
  | none => "Інше"

/-- Embeds the control flow of `analyze_and_summarize` (lines 434–719),
abstracting the two rendered HTML strings of the returned 5-tuple and keeping
its decision-relevant components `(tag, score, analysis_obj)`.  The replies
the generative service would give to the first request and to the retry are
passed in as `r1` and `r2`.  The second component lists the issued requests
in order; an entry is `true` when that request carried the appended
corrective `fix_note` (line 644–653). -/
def analyze_and_summarize (transcript : String) (r1 r2 : PyVal) :
    (String × ℕ × PyVal) × List Bool :=
  if transcript = "" then (("Інше", 0, errorObj "empty_transcript"), [])
  else if (_validate r1).1 then ((tagOf r1, scoreOf r1, r1), [false])
  else if (_validate r2).1 then ((tagOf r2, scoreOf r2, r2), [false, true])
  else (("Інше", 0, errorObj "invalid_format"), [false, true])

/-! ## Audio Acquirer (`fetch_audio`, lines 315–378) -/

/-- The distinct failure modes of `fetch_audio` (each a `RuntimeError` in the
source, distinguished by its message). -/
inductive FetchErr where
  | tooLargeDeclared (size : ℤ)
  | tooLargeStream
  | unexpectedType
  | tooSmall (n : ℕ)

/-- The declared-length check of lines 326–328: raise when the parsed
`Content-Length` exceeds the byte cap. -/
def declaredSizeCheck (clen : Option ℤ) (maxBytes : ℤ) : Except FetchErr Unit :=
  match clen with
  | none => .ok ()
  | some n => if n > maxBytes then .error (.tooLargeDeclared n) else .ok ()

/-- The enclosing handler of lines 325–330 is `except Exception: pass`: it
discards every failure of the inner block, including the deliberately raised
`RuntimeError`. -/
def swallowAll (x : Except FetchErr Unit) : Except FetchErr Unit :=
  match x with
  | .error _ => .ok ()
  | .ok () => .ok ()

/-- The streaming loop of lines 332–338: skip empty chunks, accumulate sizes,
and raise (returning the byte count downloaded so far) as soon as the buffer
exceeds the cap. -/
def streamChunks (maxBytes : ℕ) : List ℕ → ℕ → Except ℕ ℕ
  | [], buf => .ok buf
  | c :: rest, buf =>
    if c = 0 then streamChunks maxBytes rest buf
    else
      if buf + c > maxBytes then .error (buf + c)
      else streamChunks maxBytes rest (buf + c)

/-- Python `url.lower()` restricted to the suffix tests of lines 342–376. -/
def mimeFromExt (urlLower : String) (dataLen : ℕ) : Except FetchErr String :=
  if strEndsWith urlLower ".mp3" then .ok "audio/mpeg"
  else if strEndsWith urlLower ".wav" then .ok "audio/wav"
  else if strEndsWith urlLower ".m4a" then .ok "audio/mp4"
  else if dataLen < 1024 then .error .unexpectedType
  else .ok "audio/mpeg"

/-- Extension table of lines 366–375 with its `.mp3` default. -/
def extFromMime (mime : String) : String :=
  if mime = "audio/mpeg" then ".mp3"
  else if mime = "audio/wav" then ".wav"
  else if mime = "audio/x-wav" then ".wav"
  else if mime = "audio/mp4" then ".m4a"
  else if mime = "audio/x-m4a" then ".m4a"
  else if mime = "audio/aac" then ".aac"
  else if mime = "audio/ogg" then ".ogg"
  else if mime = "audio/webm" then ".webm"
  else ".mp3"

/-- Filename selection of lines 358–376. -/
def fileNameFor (urlLower mime : String) : String :=
  if strContains urlLower ".mp3" then "audio.mp3"
  else if strContains urlLower ".wav" then "audio.wav"
  else if strContains urlLower ".m4a" then "audio.m4a"
  else "audio" ++ extFromMime mime

/-- Content-Type header processing of line 321:
`r.headers.get("Content-Type", "").split(";")[0].strip().lower()`. -/
def headerMime (ct : String) : String :=
  pyLower (pyStrip (String.mk (ct.data.takeWhile (fun c => c ≠ ';'))))

/-- Embeds `fetch_audio` (lines 315–378).  Inputs: the parsed
`Content-Length` header (`none` when absent or unparseable — both paths end in
the same `except: pass`), the sizes of the streamed body chunks, the raw
`Content-Type` header, the request url, and the `max_mb` cap.  The result is
the payload size with the final mime and filename, or a failure paired with
the number of body bytes downloaded when it was raised. -/
def fetchRecording (clen : Option ℤ) (chunks : List ℕ) (contentType url : String)
    (maxMB : ℕ) : Except (FetchErr × ℕ) (ℕ × String × String) :=
  let maxBytes : ℕ := maxMB * 1024 * 1024
  let mime := headerMime contentType
  match swallowAll (declaredSizeCheck clen (maxBytes : ℤ)) with
  | .error e => .error (e, 0)
  | .ok () =>
    match streamChunks maxBytes chunks 0 with
    | .error dl => .error (.tooLargeStream, dl)
    | .ok size =>
      let urlLower := pyLower url
      let mimeStep : Except FetchErr String :=
        if mime = "" || mime = "text/html" || mime = "application/xml" ||
            mime = "text/plain" then
          mimeFromExt urlLower size
        else .ok mime
      match mimeStep with
      | .error e => .error (e, size)
      | .ok mime2 =>
        if size < 400 then .error (.tooSmall size, size)
        else .ok (size, mime2, fileNameFor urlLower mime2)

/-! ## Progress Store (lines 995–1003) -/

/-- Python `l[-k:]` for a non-negative `k`: the last `k` elements, except that
`l[-0:]` is the whole list. -/
def pyLastSlice (l : List String) (k : ℕ) : List String :=
  if k = 0 then l else l.drop (l.length - k)

/-- One `markProcessed` step (lines 996–1000): append the id, and when the
list exceeds the cap keep only `processed_list[-PROCESSED_KEEP:]`. -/
def markProcessed (cap : ℕ) (l : List String) (id : String) : List String :=
  let l' := l ++ [id]
  if l'.length > cap then pyLastSlice l' cap else l'

/-- Folding a whole sequence of processed ids through the store. -/
def runInsertions (cap : ℕ) (l0 : List String) (ids : List String) : List String :=
  ids.foldl (markProcessed cap) l0

/-! ## Weekly Aggregator (lines 769–776 and 908–923) -/

/-- The projections of `datetime.now(tz)` that `_maybe_send_weekly_report`
reads: `strftime("%a")`, `.hour`, and `isocalendar()`. -/
structure NowInfo where
  weekdayName : String
  hour : ℕ
  isoYear : ℕ
  isoWeek : ℕ

/-- Zero padding of Python `f"{n:02d}"`. -/
def pad2 (n : ℕ) : String := if n < 10 then "0" ++ toString n else toString n

/-- Embeds `_iso_week_key` (lines 769–771). -/
def _iso_week_key (now : NowInfo) : String :=
  toString now.isoYear ++ "-W" ++ pad2 now.isoWeek

/-- Embeds the decision logic of `_maybe_send_weekly_report` (lines 908–923).
`lastSent` is `st.get("last_sent_week")`.  The first component says whether
the report was emitted; the second is the state written back (`none` = no
write happened). -/
def _maybe_send_weekly_report (reportDay : String) (reportHour : ℕ)
    (lastSent : Option String) (now : NowInfo) : Bool × Option (Option String) :=
  if now.weekdayName ≠ reportDay then (false, none)
  else if now.hour < reportHour then (false, none)
  else if lastSent = some (_iso_week_key now) then (false, none)
  else (true, some (some (_iso_week_key now)))

/-! ## Concrete replies used as test vectors -/

/-- A checklist item as the model is instructed to produce it. -/
def mkItem (st note ev : String) (conf : ℚ) : PyVal :=
  .pyDict [("status", .pyStr st), ("note", .pyStr note),
           ("evidence", .pyStr ev), ("confidence", .pyFloat conf)]

/-- A note that is specific, long enough and distinct from every label. -/
def stdNote : String := "Виконано коректно за скриптом"

/-- Operator-behaviour `top_issues` free of call-topic vocabulary. -/
def stdIssues : List String :=
  ["Не запропонував додаткову допомогу", "Не підсумував розмову"]

/-- A full reply with the given checklist and `top_issues`. -/
def mkReply (items : List PyVal) (tis : List String) : PyVal :=
  .pyDict
    [("facts", .pyDict []),
     ("checklist", .pyList items),
     ("summary", .pyStr "Клієнт звернувся із питанням щодо послуги."),
     ("tag", .pyStr "Інше"),
     ("coaching", .pyDict
        [("top_issues", .pyList (tis.map PyVal.pyStr)),
         ("one_sentence_tip", .pyStr "Чітко проговорюйте наступні кроки.")]),
     ("risk_flags", .pyList [])]

/-- A fully valid reply whose items are all `ok` with confidence 0.9. -/
def replyGood : PyVal := mkReply (List.replicate 8 (mkItem "ok" stdNote "" (mkRat 9 10))) stdIssues

/-- Same shape but only 7 checklist items. -/
def replySeven : PyVal := mkReply (List.replicate 7 (mkItem "ok" stdNote "" (mkRat 9 10))) stdIssues

/-- Same shape but 9 checklist items. -/
def replyNine : PyVal := mkReply (List.replicate 9 (mkItem "ok" stdNote "" (mkRat 9 10))) stdIssues

/-- Valid except that the first item claims `ok` with confidence 0.5. -/
def replyConf05 : PyVal :=
  mkReply (mkItem "ok" stdNote "" (mkRat 5 10) ::
           List.replicate 7 (mkItem "ok" stdNote "" (mkRat 9 10))) stdIssues

/-- Otherwise valid, `top_issues` overlap the topic blocklist (`тариф`) and
also contain the no-remarks phrase that disables the rejection. -/
def replyTopicExempt : PyVal :=
  mkReply (List.replicate 8 (mkItem "ok" stdNote "" (mkRat 9 10)))
    ["Немає суттєвих зауважень", "Постійно згадує тарифи"]

/-- Otherwise valid, `top_issues` overlap the topic blocklist without the
no-remarks phrase. -/
def replyTopicLeak : PyVal :=
  mkReply (List.replicate 8 (mkItem "ok" stdNote "" (mkRat 9 10)))
    ["Довго пояснює тарифи", "Не підсумував розмову"]

/-- The joined, normalised `top_issues` text that the topic check scans
(line 633), recomputed from the reply object. -/
def tiJoin (obj : PyVal) : String :=
  match getD (getD obj "coaching" .pyNone) "top_issues" .pyNone with
  | .pyList tis => normJoin tis
  | _ => ""

/-! ## Helper lemmas -/

theorem swallowAll_eq (x : Except FetchErr Unit) : swallowAll x = .ok () := by
  cases x with
  | error e => rfl
  | ok u => cases u; rfl

theorem streamChunks_ok_le (maxBytes : ℕ) :
    ∀ (chunks : List ℕ) (buf s : ℕ), buf ≤ maxBytes →
      streamChunks maxBytes chunks buf = .ok s → s ≤ maxBytes := by
  intro chunks
  induction chunks with
  | nil =>
    intro buf s hb h
    simp only [streamChunks] at h
    cases h
    exact hb
  | cons c rest ih =>
    intro buf s hb h
    simp only [streamChunks] at h
    by_cases hc : c = 0
    · rw [if_pos hc] at h
      exact ih buf s hb h
    · rw [if_neg hc] at h
      by_cases hover : buf + c > maxBytes
      · rw [if_pos hover] at h
        cases h
      · rw [if_neg hover] at h
        exact ih (buf + c) s (Nat.not_lt.mp hover) h

theorem streamChunks_overflow (maxBytes : ℕ) :
    ∀ (chunks : List ℕ) (buf : ℕ), buf ≤ maxBytes →
      maxBytes < buf + chunks.sum →
      ∃ dl, streamChunks maxBytes chunks buf = .error dl ∧ maxBytes < dl := by
  intro chunks
  induction chunks with
  | nil =>
    intro buf hb hsum
    simp at hsum
    omega
  | cons c rest ih =>
    intro buf hb hsum
    simp only [List.sum_cons] at hsum
    by_cases hc : c = 0
    · subst hc
      simp only [streamChunks, if_pos rfl]
      exact ih buf hb (by omega)
    · simp only [streamChunks, if_neg hc]
      by_cases hover : buf + c > maxBytes
      · exact ⟨buf + c, by rw [if_pos hover], hover⟩
      · rw [if_neg hover]
        exact ih (buf + c) (Nat.not_lt.mp hover) (by omega)

/-- Bounded window abstraction: what the store keeps of a full history. -/
def windowFix (cap : ℕ) (l : List String) : List String :=
  if l.length ≤ cap then l else l.drop (l.length - cap)

theorem windowFix_length (cap : ℕ) (l : List String) :
    (windowFix cap l).length = min l.length cap := by
  unfold windowFix
  split
  · omega
  · simp only [List.length_drop]
    omega

theorem windowFix_le (cap : ℕ) (l : List String) : (windowFix cap l).length ≤ cap := by
  rw [windowFix_length]
  omega

theorem markProcessed_eq_windowFix (cap : ℕ) (hcap : 0 < cap) (l : List String)
    (id : String) : markProcessed cap l id = windowFix cap (l ++ [id]) := by
  simp only [markProcessed, pyLastSlice, windowFix]
  rw [if_neg (by omega : ¬ cap = 0)]
  by_cases h : (l ++ [id]).length ≤ cap
  · rw [if_neg (by omega : ¬ (l ++ [id]).length > cap), if_pos h]
  · rw [if_pos (by omega : (l ++ [id]).length > cap), if_neg h]

theorem windowFix_append (cap : ℕ) (l rest : List String) :
    windowFix cap (windowFix cap l ++ rest) = windowFix cap (l ++ rest) := by
  by_cases h : l.length ≤ cap
  · have hwl : windowFix cap l = l := if_pos h
    rw [hwl]
  · have hwl : windowFix cap l = l.drop (l.length - cap) := if_neg h
    rw [hwl]
    have hd : (l ++ rest).drop (l.length - cap) = l.drop (l.length - cap) ++ rest :=
      List.drop_append_of_le_length (by omega)
    rw [← hd]
    have hlen1 : ((l ++ rest).drop (l.length - cap)).length = cap + rest.length := by
      simp only [List.length_drop, List.length_append]
      omega
    by_cases hr : rest.length = 0
    · rw [windowFix, if_pos (by omega), windowFix,
        if_neg (by simp only [List.length_append]; omega)]
      congr 1
      simp only [List.length_append]
      omega
    · rw [windowFix, if_neg (by omega), windowFix,
        if_neg (by simp only [List.length_append]; omega), hlen1, List.drop_drop]
      congr 1
      simp only [List.length_append]
      omega

theorem runInsertions_eq (cap : ℕ) (hcap : 0 < cap) :
    ∀ (ids l0 : List String), l0.length ≤ cap →
      runInsertions cap l0 ids = windowFix cap (l0 ++ ids) := by
  intro ids
  induction ids with
  | nil =>
    intro l0 h
    simp only [runInsertions, List.foldl_nil, List.append_nil]
    rw [windowFix, if_pos h]
  | cons id rest ih =>
    intro l0 h
    show runInsertions cap (markProcessed cap l0 id) rest = _
    rw [ih (markProcessed cap l0 id)
        (by rw [markProcessed_eq_windowFix cap hcap]; exact windowFix_le _ _)]
    rw [markProcessed_eq_windowFix cap hcap, windowFix_append]
    simp

theorem maybe_fire_iff (day : String) (hr : ℕ) (last : Option String) (now : NowInfo) :
    (_maybe_send_weekly_report day hr last now).1 = true ↔
      (now.weekdayName = day ∧ hr ≤ now.hour ∧ last ≠ some (_iso_week_key now)) := by
  unfold _maybe_send_weekly_report
  split_ifs <;> simp_all

theorem maybe_fire_state (day : String) (hr : ℕ) (last : Option String) (now : NowInfo)
    (h : (_maybe_send_weekly_report day hr last now).1 = true) :
    _maybe_send_weekly_report day hr last now = (true, some (some (_iso_week_key now))) := by
  unfold _maybe_send_weekly_report at h ⊢
  split_ifs at h ⊢
  rfl

theorem clamp_bounds (x lo hi : ℚ) (h : lo ≤ hi) :
    lo ≤ _clamp x lo hi ∧ _clamp x lo hi ≤ hi :=
  ⟨le_max_left _ _, max_le h (min_le_left _ _)⟩

theorem pythonRound_bounds (q : ℚ) (a b : ℤ) (ha : (a : ℚ) ≤ q) (hb : q ≤ (b : ℚ)) :
    a ≤ pythonRound q ∧ pythonRound q ≤ b := by
  simp only [pythonRound]
  have hfa : a ≤ ⌊q⌋ := Int.le_floor.mpr ha
  have hfb : ⌊q⌋ ≤ b := by
    have h1 : (⌊q⌋ : ℚ) ≤ (b : ℚ) := (Int.floor_le q).trans hb
    exact_mod_cast h1
  have hfb2 : ¬ (q - (⌊q⌋ : ℚ) < 1/2) → ⌊q⌋ + 1 ≤ b := by
    intro hnl
    have hr : (1 : ℚ)/2 ≤ q - (⌊q⌋ : ℚ) := not_lt.mp hnl
    have hlt : (⌊q⌋ : ℚ) < (b : ℚ) := by linarith
    exact_mod_cast Int.cast_lt.mp hlt
  split_ifs with h1 h2 h3
  · exact ⟨hfa, hfb⟩
  · exact ⟨by omega, hfb2 h1⟩
  · exact ⟨hfa, hfb⟩
  · exact ⟨by omega, hfb2 h1⟩

theorem validateItem_ok_conf (j : ℕ) (it : PyVal)
    (h : validateItem j it = none)
    (hok : pyEqStr (getD it "status" PyVal.pyNone) "ok" = true) :
    ∃ q, toQ (getD it "confidence" PyVal.pyNone) = some q ∧
      mkRat 3 4 ≤ q ∧ q ≤ 1 := by
  cases it with
  | pyDict fs =>
    simp only [validateItem] at h
    split at h
    next => exact Option.noConfusion h
    next =>
      split at h
      next ns hns =>
        split at h
        next => exact Option.noConfusion h
        next =>
          split at h
          next => exact Option.noConfusion h
          next =>
            split at h
            next es hes =>
              split at h
              next => exact Option.noConfusion h
              next =>
                split at h
                next q hq =>
                  split at h
                  next => exact Option.noConfusion h
                  next hrange =>
                    split at h
                    next => exact Option.noConfusion h
                    next =>
                      split at h
                      next => exact Option.noConfusion h
                      next hc75 =>
                        refine ⟨q, hq, ?_, ?_⟩
                        · have hc75' : (decide (q < mkRat 3 4) &&
                              pyEqStr (getD (PyVal.pyDict fs) "status"
                                PyVal.pyNone) "ok") = false :=
                            Bool.eq_false_iff.mpr hc75
                          rcases Bool.and_eq_false_iff.mp hc75' with hlt | hst
                          · exact le_of_not_lt (by simpa using hlt)
                          · exact absurd hok (by simp [hst])
                        · have hrange' : (decide (q < 0) || decide (q > 1))
                              = false := Bool.eq_false_iff.mpr hrange
                          rcases Bool.or_eq_false_iff.mp hrange' with ⟨_, hgt⟩
                          exact le_of_not_lt (by simpa using hgt)
                next hq => exact Option.noConfusion h
            next => exact Option.noConfusion h
      next => exact Option.noConfusion h
  | pyNone => exact Option.noConfusion h
  | pyBool b => exact Option.noConfusion h
  | pyInt n => exact Option.noConfusion h
  | pyFloat q => exact Option.noConfusion h
  | pyStr s => exact Option.noConfusion h
  | pyList xs => exact Option.noConfusion h

theorem firstItemErrorFrom_mem :
    ∀ (l : List PyVal) (i : ℕ), firstItemErrorFrom i l = none →
      ∀ it ∈ l, ∃ j, validateItem j it = none := by
  intro l
  induction l with
  | nil => intro i _ it hmem; cases hmem
  | cons hd tl ih =>
    intro i h it hmem
    simp only [firstItemErrorFrom] at h
    cases hv : validateItem i hd with
    | some msg => rw [hv] at h; exact Option.noConfusion h
    | none =>
      rw [hv] at h
      cases hmem with
      | head => exact ⟨i, hv⟩
      | tail _ hmem2 => exact ih (i + 1) h it hmem2

theorem validate_checklist_shape (obj : PyVal) (h : (_validate obj).1 = true) :
    ∃ cl, checklistOf obj = some cl ∧ cl.length = 8 ∧
      firstItemErrorFrom 0 cl = none := by
  cases obj with
  | pyDict fs =>
    simp only [_validate] at h
    split at h
    · split at h
      next cl hcl =>
        split at h
        next h8 =>
          split at h
          · simp at h
          · next hfie =>
              exact ⟨cl, by simp [checklistOf, hcl], h8, hfie⟩
        next => simp at h
      next => simp at h
    · simp at h
  | pyNone => simp [_validate] at h
  | pyBool b => simp [_validate] at h
  | pyInt n => simp [_validate] at h
  | pyFloat q => simp [_validate] at h
  | pyStr s => simp [_validate] at h
  | pyList xs => simp [_validate] at h

theorem validate_topic_exempt (obj : PyVal) (h : (_validate obj).1 = true)
    (hov : bad_topic_tokens.any (fun tok => strContains (tiJoin obj) tok) = true) :
    strContains (tiJoin obj) no_remarks_phrase = true := by
  cases obj with
  | pyDict fs =>
    simp only [_validate] at h
    split at h
    next =>
      split at h
      next cl hcl =>
        split at h
        next h8 =>
          split at h
          next => simp at h
          next hfie =>
            simp only [validateTail] at h
            split at h
            next => simp at h
            next =>
              split at h
              next summary hsum =>
                split at h
                next => simp at h
                next =>
                  split at h
                  next cfs hcoach =>
                    split at h
                    next tis hti =>
                      split at h
                      next => simp at h
                      next =>
                        split at h
                        next tipS htip =>
                          split at h
                          next => simp at h
                          next =>
                            split at h
                            next rfs hrf =>
                              split at h
                              next => simp at h
                              next =>
                                split at h
                                next => simp at h
                                next htopic =>
                                  have hj : tiJoin (PyVal.pyDict fs)
                                      = normJoin tis := by
                                    simp [tiJoin, hti]
                                  rw [hj] at hov ⊢
                                  have htop' :
                                      (bad_topic_tokens.any
                                        (fun tok => strContains (normJoin tis) tok) &&
                                        !strContains (normJoin tis) no_remarks_phrase)
                                      = false := Bool.eq_false_iff.mpr htopic
                                  rcases Bool.and_eq_false_iff.mp htop' with ha | hb
                                  · exact absurd hov (by simp [ha])
                                  · simpa using hb
                            next => simp at h
                        next => simp at h
                    next => simp at h
                  next => simp at h
              next => simp at h
        next => simp at h
      next => simp at h
    next => simp at h
  | pyNone => simp [_validate] at h
  | pyBool b => simp [_validate] at h
  | pyInt n => simp [_validate] at h
  | pyFloat q => simp [_validate] at h
  | pyStr s => simp [_validate] at h
  | pyList xs => simp [_validate] at h

/-! ## Claim theorems -/

/-- C1: for every transcript the engine issues at most two generative
requests; with a non-empty transcript, a valid first reply is accepted after
one request, an invalid first reply triggers exactly one retry whose request
carries the corrective instruction, a valid retry reply is accepted with no
third request, and two invalid replies yield the sentinel result with the
catch-all tag and score 0. -/
theorem spec_c1_bounded_retry (t : String) (r1 r2 : PyVal) :
    ((analyze_and_summarize t r1 r2).2).length ≤ 2 ∧
    (t ≠ "" →
      (((_validate r1).1 = true →
        analyze_and_summarize t r1 r2 = ((tagOf r1, scoreOf r1, r1), [false])) ∧
      ((_validate r1).1 = false → (_validate r2).1 = true →
        analyze_and_summarize t r1 r2
          = ((tagOf r2, scoreOf r2, r2), [false, true])) ∧
      ((_validate r1).1 = false → (_validate r2).1 = false →
        analyze_and_summarize t r1 r2
          = (("Інше", 0, errorObj "invalid_format"), [false, true])))) := by
  constructor
  · by_cases ht : t = "" <;> by_cases h1 : (_validate r1).1 = true <;>
      by_cases h2 : (_validate r2).1 = true <;>
      simp [analyze_and_summarize, ht, h1, h2]
  · intro ht
    refine ⟨?_, ?_, ?_⟩
    · intro h1
      simp [analyze_and_summarize, ht, h1]
    · intro h1 h2
      simp [analyze_and_summarize, ht, h1, h2]
    · intro h1 h2
      simp [analyze_and_summarize, ht, h1, h2]

/-- C1 witness (spec scenario B): the first reply has 7 checklist items and
is rejected, the retry reply is valid and is accepted after exactly two
requests, the second carrying the corrective instruction. -/
theorem spec_c1_bounded_retry_witness :
    analyze_and_summarize "привіт" replySeven replyGood
      = (("Інше", 8, replyGood), [false, true]) :=
  ((spec_c1_bounded_retry "привіт" replySeven replyGood).2
    (by decide)).2.1 (by decide) (by decide)

/-- C2: a reply passes the validator only if its checklist is a list of
exactly 8 items each of which couples `status = ok` with confidence in
[0.75, 1]; concretely, the all-ok reply with confidence 0.9 is accepted while
7-item, 9-item, and ok-with-0.5-confidence replies are rejected. -/
theorem spec_c2_validator_checklist :
    (∀ obj, (_validate obj).1 = true →
      ∃ cl, checklistOf obj = some cl ∧ cl.length = 8 ∧
        (∀ it ∈ cl, pyEqStr (getD it "status" PyVal.pyNone) "ok" = true →
          ∃ q, toQ (getD it "confidence" PyVal.pyNone) = some q ∧
            mkRat 3 4 ≤ q ∧ q ≤ 1)) ∧
    (_validate replyGood).1 = true ∧
    checklistOf replyGood
      = some (List.replicate 8 (mkItem "ok" stdNote "" (mkRat 9 10))) ∧
    (_validate replySeven).1 = false ∧
    (_validate replyNine).1 = false ∧
    (_validate replyConf05).1 = false := by
  refine ⟨?_, by decide, rfl, by decide, by decide, by decide⟩
  intro obj h
  obtain ⟨cl, hcl, h8, hfie⟩ := validate_checklist_shape obj h
  refine ⟨cl, hcl, h8, ?_⟩
  intro it hmem hok
  obtain ⟨j, hj⟩ := firstItemErrorFrom_mem cl 0 hfie it hmem
  exact validateItem_ok_conf j it hj hok

/-- C2 witness: the accepted 0.9-confidence reply indeed has a checklist of
exactly 8 items, all satisfying the confidence/status coupling. -/
theorem spec_c2_validator_checklist_witness :
    ∃ cl, checklistOf replyGood = some cl ∧ cl.length = 8 ∧
      (∀ it ∈ cl, pyEqStr (getD it "status" PyVal.pyNone) "ok" = true →
        ∃ q, toQ (getD it "confidence" PyVal.pyNone) = some q ∧
          mkRat 3 4 ≤ q ∧ q ≤ 1) :=
  spec_c2_validator_checklist.1 replyGood (by decide)

/-- C9 counterexample: an otherwise-valid reply whose `top_issues` overlap
the topic blocklist (they contain "тариф") is nevertheless accepted, because
the joined issues also contain the no-remarks phrase — refuting the claim
that every overlapping otherwise-valid reply is rejected. -/
theorem spec_c9_topic_counterexample :
    (_validate replyTopicExempt).1 = true ∧
    bad_topic_tokens.any
      (fun tok => strContains (tiJoin replyTopicExempt) tok) = true :=
  ⟨by decide, by decide⟩

/-- C9 (amended): the validator rejects every otherwise-valid reply whose
`top_issues` overlap the call-topic blocklist, unless the joined issues also
contain the phrase "немає суттєвих зауважень", which disables the check;
concretely, an overlapping reply without that phrase is rejected with the
topic-leak error. -/
theorem spec_c9_topic_blocklist_amended :
    (∀ obj, (_validate obj).1 = true →
      bad_topic_tokens.any (fun tok => strContains (tiJoin obj) tok) = true →
      strContains (tiJoin obj) no_remarks_phrase = true) ∧
    _validate replyTopicLeak
      = (false, "coaching.top_issues looks like call topic") :=
  ⟨validate_topic_exempt, by decide⟩

/-- C9 witness: the accepted overlapping reply indeed contains the disabling
phrase in its joined `top_issues`. -/
theorem spec_c9_topic_blocklist_amended_witness :
    strContains (tiJoin replyTopicExempt) no_remarks_phrase = true :=
  spec_c9_topic_blocklist_amended.1 replyTopicExempt (by decide) (by decide)

/-- C3: a parsed call candidate is kept by the Call Selector's filter exactly
when its duration is known and at least the configured minimum, its recording
address is present (non-empty), and, when the inbound-only flag is set, its
direction equals the inbound code.  Stated for every positive configured
minimum duration (the deployed default is 10 seconds). -/
theorem spec_c3_selector_eligibility (minDur : ℤ) (hmin : 1 ≤ minDur)
    (onlyIn : Bool) (code : String) (r : CallItem) (rs : List CallItem) :
    (eligible minDur onlyIn code r = true ↔
      ((∃ d, r.duration = some d ∧ minDur ≤ d) ∧
       (∃ u, r.record_url = some u ∧ u ≠ "") ∧
       (onlyIn = false ∨ r.call_type = some code))) ∧
    (r ∈ selectEligible minDur onlyIn code rs ↔
      r ∈ rs ∧ eligible minDur onlyIn code r = true) := by
  constructor
  · rcases r with ⟨cid, cst, dur, url, ct⟩
    cases dur with
    | none => simp [eligible, durTruthy]
    | some d =>
      cases url with
      | none => simp [eligible, durTruthy, strOptTruthy]
      | some u =>
        simp only [eligible, durTruthy, strOptTruthy, Bool.and_eq_true, Bool.or_eq_true,
          Bool.not_eq_true', decide_eq_true_eq, beq_iff_eq]
        constructor
        · rintro ⟨⟨⟨hd0, hdge⟩, hu⟩, hor⟩
          exact ⟨⟨d, rfl, hdge⟩, ⟨u, rfl, hu⟩, hor⟩
        · rintro ⟨⟨d2, hd2, hge⟩, ⟨u2, hu2, hne⟩, hor⟩
          cases hd2
          cases hu2
          exact ⟨⟨⟨by omega, hge⟩, hne⟩, hor⟩
  · exact List.mem_filter

/-- C3 witness: the default configuration (minimum 10 s, inbound-only with
code "1") keeps an inbound 30-second call with a recording. -/
theorem spec_c3_selector_eligibility_witness :
    eligible 10 true "1"
      ⟨"id1", "2024-01-01", some 30, some "https://rec", some "1"⟩ = true :=
  ((spec_c3_selector_eligibility 10 (by omega) true "1"
      ⟨"id1", "2024-01-01", some 30, some "https://rec", some "1"⟩ []).1).mpr
    ⟨⟨30, rfl, by omega⟩, ⟨"https://rec", rfl, by decide⟩, Or.inr rfl⟩

/-- C4: the overall trust of any pair of integer inputs is their minimum —
never above either input — and the two spec examples hold. -/
theorem spec_c4_overall_trust_min :
    (∀ a b : ℤ, compute_overall_trust a b = min a b ∧
      compute_overall_trust a b ≤ a ∧ compute_overall_trust a b ≤ b) ∧
    compute_overall_trust 70 40 = 40 ∧ compute_overall_trust 100 100 = 100 :=
  ⟨fun a b => ⟨rfl, min_le_left a b, min_le_right a b⟩, by decide, by decide⟩

/-- C5 (code bug): the declared Content-Length check of `fetch_audio` raises
inside a `try` block whose handler is `except Exception: pass`, so the
too-large abort is swallowed; with a declared length of 999999999 bytes
against the 25 MB cap the body is still downloaded until the streaming
accumulation check fires, after 30000000 bytes — more than the whole cap —
instead of before any body byte. -/
theorem spec_c5_declared_length_not_enforced :
    declaredSizeCheck (some 999999999) (25 * 1024 * 1024)
        = .error (.tooLargeDeclared 999999999) ∧
    swallowAll (declaredSizeCheck (some 999999999) (25 * 1024 * 1024)) = .ok () ∧
    fetchRecording (some 999999999) [20000000, 10000000] "audio/mpeg"
        "https://portal/rec.mp3" 25 = .error (.tooLargeStream, 30000000) ∧
    25 * 1024 * 1024 < 30000000 :=
  ⟨rfl, rfl, rfl, by decide⟩

/-- C6: whatever the Content-Length header said, the streaming loop aborts
with the too-large failure as soon as the accumulated bytes exceed the cap,
so a returned payload never exceeds the cap, and a body whose total size
exceeds the cap always ends in the streaming too-large failure. -/
theorem spec_c6_streaming_cap (clen : Option ℤ) (chunks : List ℕ)
    (ct url : String) (mm : ℕ) :
    (∀ size m f, fetchRecording clen chunks ct url mm = .ok (size, m, f) →
      size ≤ mm * 1024 * 1024) ∧
    (mm * 1024 * 1024 < chunks.sum →
      ∃ dl, fetchRecording clen chunks ct url mm = .error (.tooLargeStream, dl) ∧
        mm * 1024 * 1024 < dl) := by
  constructor
  · intro size m f hok
    simp only [fetchRecording, swallowAll_eq] at hok
    cases hs : streamChunks (mm * 1024 * 1024) chunks 0 with
    | error dl => rw [hs] at hok; exact Except.noConfusion hok
    | ok s =>
      rw [hs] at hok
      have hle : s ≤ mm * 1024 * 1024 :=
        streamChunks_ok_le (mm * 1024 * 1024) chunks 0 s (by omega) hs
      simp only at hok
      split at hok
      · exact Except.noConfusion hok
      · split at hok
        · exact Except.noConfusion hok
        · cases hok
          exact hle
  · intro hsum
    obtain ⟨dl, hdl, hgt⟩ :=
      streamChunks_overflow (mm * 1024 * 1024) chunks 0 (by omega) (by omega)
    refine ⟨dl, ?_, hgt⟩
    simp only [fetchRecording, swallowAll_eq]
    rw [hdl]

/-- C6 witness: a small body is returned whole and bounded by the cap, and a
30 MB body against the 25 MB cap ends in the streaming too-large failure. -/
theorem spec_c6_streaming_cap_witness :
    500 ≤ 25 * 1024 * 1024 ∧
    (∃ dl, fetchRecording none [30000000] "audio/mpeg" "x.mp3" 25
        = .error (.tooLargeStream, dl) ∧ 25 * 1024 * 1024 < dl) :=
  ⟨(spec_c6_streaming_cap none [500] "audio/mpeg" "x.mp3" 25).1
      500 "audio/mpeg" "audio.mp3" rfl,
   (spec_c6_streaming_cap none [30000000] "audio/mpeg" "x.mp3" 25).2 (by decide)⟩

/-- C7: starting from an empty store, after `cap + k` insertions (`k > 0`,
positive cap, distinct ids) the persisted window is exactly the most recent
`cap` ids in insertion order (the first `k` evicted from the front), its size
is exactly `cap`, and no intermediate persisted state ever exceeds `cap`. -/
theorem spec_c7_window_eviction (cap k : ℕ) (ids : List String) (hcap : 0 < cap)
    (hk : 0 < k) (hlen : ids.length = cap + k) (_hnd : ids.Nodup) :
    runInsertions cap [] ids = ids.drop k ∧
    (runInsertions cap [] ids).length = cap ∧
    (∀ p q, ids = p ++ q → (runInsertions cap [] p).length ≤ cap) := by
  have hrun : ∀ l : List String, runInsertions cap [] l = windowFix cap l := by
    intro l
    rw [runInsertions_eq cap hcap l [] (by simp)]
    simp
  refine ⟨?_, ?_, ?_⟩
  · rw [hrun, windowFix, if_neg (by omega)]
    congr 1
    omega
  · rw [hrun, windowFix_length]
    omega
  · intro p q hpq
    rw [hrun]
    exact windowFix_le cap p

/-- C7 witness: with cap 2 and three distinct ids the persisted window is the
last two ids in order. -/
theorem spec_c7_window_eviction_witness :
    runInsertions 2 [] ["a", "b", "c"] = ["b", "c"] :=
  ((spec_c7_window_eviction 2 1 ["a", "b", "c"] (by omega) (by omega)
      (by decide) (by decide)).1).trans (by decide)

/-- C8: the weekly aggregator fires exactly when the weekday matches the
configured day, the hour has reached the configured hour, and the persisted
`last_sent_week` differs from the current ISO week key; when the key already
matches it emits nothing and writes no state, and once fired it cannot fire
again within the same ISO week. -/
theorem spec_c8_weekly_gate (day : String) (hr : ℕ) (last : Option String)
    (now now2 : NowInfo) :
    ((_maybe_send_weekly_report day hr last now).1 = true ↔
      (now.weekdayName = day ∧ hr ≤ now.hour ∧
        last ≠ some (_iso_week_key now))) ∧
    (last = some (_iso_week_key now) →
      _maybe_send_weekly_report day hr last now = (false, none)) ∧
    ((_maybe_send_weekly_report day hr last now).1 = true →
      _iso_week_key now2 = _iso_week_key now →
      (_maybe_send_weekly_report day hr
        ((_maybe_send_weekly_report day hr last now).2.getD last) now2).1
        = false) := by
  refine ⟨maybe_fire_iff day hr last now, ?_, ?_⟩
  · intro hlast
    unfold _maybe_send_weekly_report
    by_cases h1 : now.weekdayName ≠ day
    · rw [if_pos h1]
    · rw [if_neg h1]
      by_cases h2 : now.hour < hr
      · rw [if_pos h2]
      · rw [if_neg h2, if_pos hlast]
  · intro hfire hkey
    rw [maybe_fire_state day hr last now hfire]
    simp only [Option.getD_some]
    rw [Bool.eq_false_iff]
    intro hfire2
    obtain ⟨_, _, hne⟩ := (maybe_fire_iff day hr _ now2).mp hfire2
    exact hne (by rw [hkey])

/-- C8 witness: with the default schedule (Friday 18:00) and the week's
report already sent, `maybeRun` emits nothing and writes nothing; at a
matching time with a fresh key it fires. -/
theorem spec_c8_weekly_gate_witness :
    _maybe_send_weekly_report "Fri" 18 (some "2024-W05")
        ⟨"Fri", 18, 2024, 5⟩ = (false, none) ∧
    (_maybe_send_weekly_report "Fri" 18 (some "2024-W04")
        ⟨"Fri", 18, 2024, 5⟩).1 = true :=
  ⟨(spec_c8_weekly_gate "Fri" 18 (some "2024-W05") ⟨"Fri", 18, 2024, 5⟩
      ⟨"Fri", 18, 2024, 5⟩).2.1 (by decide),
   ((spec_c8_weekly_gate "Fri" 18 (some "2024-W04") ⟨"Fri", 18, 2024, 5⟩
      ⟨"Fri", 18, 2024, 5⟩).1).mpr ⟨rfl, by decide, by decide⟩⟩

/-- C10: a non-empty transcript with an unknown or non-positive duration
always scores between 20 and 95 inclusive, and the empty transcript always
scores 0. -/
theorem spec_c10_transcript_trust_bounds :
    (∀ (t : String) (d : Option ℤ), t ≠ "" →
      (d = none ∨ ∃ z, d = some z ∧ z ≤ 0) →
      20 ≤ compute_transcript_trust t d ∧ compute_transcript_trust t d ≤ 95) ∧
    (∀ d, compute_transcript_trust "" d = 0) := by
  constructor
  · intro t d ht hd
    have hc := clamp_bounds (((t.length : ℚ)) / 1200 * 100) 20 95 (by norm_num)
    have hb := pythonRound_bounds (_clamp (((t.length : ℚ)) / 1200 * 100) 20 95)
      20 95 (by exact_mod_cast hc.1) (by exact_mod_cast hc.2)
    rcases hd with rfl | ⟨z, rfl, hz⟩
    · simpa [compute_transcript_trust, ht] using hb
    · simpa [compute_transcript_trust, ht, if_pos hz] using hb
  · intro d
    simp [compute_transcript_trust]

/-- C10 witness: a one-character transcript with unknown duration lands in
[20, 95], and the empty transcript with a positive duration scores 0. -/
theorem spec_c10_transcript_trust_bounds_witness :
    (20 ≤ compute_transcript_trust "а" none ∧
      compute_transcript_trust "а" none ≤ 95) ∧
    compute_transcript_trust "" (some 120) = 0 :=
  ⟨spec_c10_transcript_trust_bounds.1 "а" none (by decide) (Or.inl rfl),
   spec_c10_transcript_trust_bounds.2 (some 120)⟩

end B24
